import Mathlib

/-!
# release-watcher: the GitHub provider and the Slack receiver

A shallow embedding of `internal/providers/github/github.go` and
`internal/recievers/slack/slack.go`.

* Go's `(value, error)` results are pairs whose second component is an
  `Option GoError`; `none` is Go's `nil` error.
* A run-time panic is the result `none` where a function can panic.
* The network and the clock are explicit: a `World` counts the HTTP requests
  sent so far and records every wait, and a client answers the `i`-th request
  of the run by a function of the URL and of `i`.
* An HTTP client follows redirects as net/http does under its default policy:
  one call of `Get` or `Do` can send several requests.
* Logging (`log.Debugf`, `log.Warnf`, `fmt.Println`) is not observable here.
-/

namespace ReleaseWatcher

/-! ## Values shared by both packages -/

/-- Go's `time.Duration`: a number of nanoseconds. -/
abbrev Duration := Int

/-- Go's `time.Hour`. -/
def Hour : Duration := 3600000000000

/-- Go's `[]byte`. -/
abbrev Bytes := List UInt8

/-- Modelled from the spec: the error values `errNo200` and `errRateLimit` are
used by github.go and declared in a file of package github that is not at hand;
they are the spec's hard failure and rate-limit failure, two distinct values.
`slackNo200Err` is declared in slack.go. `other` stands for every error value
made by a library (transport, body read, JSON, request building). -/
inductive GoError where
  | errNo200
  | errRateLimit
  | slackNo200Err
  | other (msg : String)
deriving DecidableEq

open GoError

/-! ## Redirects in net/http -/

/-- The statuses for which `redirectBehavior` of net/http asks for a redirect:
301, 302, 303, 307 and 308. The client follows such a response when it carries
a `Location` header. -/
def shouldRedirect (StatusCode : Nat) : Bool :=
  StatusCode == 301 || StatusCode == 302 || StatusCode == 303 || StatusCode == 307
    || StatusCode == 308

/-- The method of the next request, after `redirectBehavior`: 301, 302 and 303
turn every method but GET and HEAD into GET, 307 and 308 keep the method. -/
def redirectMethod (StatusCode : Nat) (method : String) : String :=
  if StatusCode == 307 || StatusCode == 308 then method
  else if method != "GET" && method != "HEAD" then "GET" else method

/-- Whether the next request carries the body of the first one, after
`redirectBehavior`: for 307 and 308 only. -/
def includeBody (StatusCode : Nat) : Bool :=
  StatusCode == 307 || StatusCode == 308

/-- The error of `defaultCheckRedirect` when ten requests have been sent. -/
def errTooManyRedirects : GoError := other "stopped after 10 redirects"

/-! ## Package github -/

namespace github

/-- Modelled from the spec: the type `ReleaseInfo` is used by github.go and
declared in a file of package github that is not at hand; its fields are the
three the code reads, the spec's Release Record (version, description, link). -/
structure ReleaseInfo where
  TagName : String
  Body : String
  HtmlUrl : String
deriving DecidableEq

/-- The zero value of `ReleaseInfo` (Go's `var ri ReleaseInfo`). -/
def ReleaseInfo.zero : ReleaseInfo := ⟨"", "", ""⟩

/-- The answer to one HTTP request, and what `client.Get(url)` hands back: an
error, or a response with its status code, its `Location` header (empty when
there is none) and the outcome of `io.ReadAll(res.Body)`. -/
inductive GetResult where
  | failed (err : GoError)
  | response (StatusCode : Nat) (Location : String) (readAll : Bytes × Option GoError)
deriving DecidableEq

/-- An `*http.Client` together with the network behind it: the answer to the
GET request for `url` when it is request number `i` of the run. The client has
the default redirect policy (a nil `CheckRedirect`), as the client that `New`
makes for a nil argument has. -/
abbrev Client := String → Nat → GetResult

/-- The requests sent and the waits made so far. -/
structure World where
  requests : Nat
  sleeps : List Duration
deriving DecidableEq

/-- One HTTP request leaves. -/
def World.request (w : World) : World := ⟨w.requests + 1, w.sleeps⟩

/-- The caller blocks for `d` (`time.Sleep`, or the retry timer). -/
def World.sleep (w : World) (d : Duration) : World := ⟨w.requests, w.sleeps ++ [d]⟩

/-- What the provider needs from outside: the client `&http.Client{}` that `New`
falls back to, `json.Unmarshal(body, &ri)` on a zero `ri` (the value left in
`ri` and the error), and `req.URL.Parse(loc)`, the URL that a `Location` header
`loc` stands for in the answer to a request for `url`, with the error when it
does not parse. -/
structure Env where
  defaultClient : Client
  unmarshal : Bytes → ReleaseInfo × Option GoError
  resolve : String → String → String × Option GoError

def githubAPI_SCHEME : String := "https"

def githubAPI_URL : String := "api.github.com/repos"

def lastReleaseReq : String := "releases/latest"

def getReleaseRate : Duration := Hour * 3

def githubRateLimitWait : Duration := Hour * 1

def StatusOK : Nat := 200

def StatusForbidden : Nat := 403

/-- The struct `GithubProvider`; a nil `client` is `none`. -/
structure GithubProvider where
  Path : String
  Release : ReleaseInfo
  client : Option Client

/-! ### The retry engine (`github.com/avast/retry-go/v4`)

The library is not part of the repository. `Config` holds the options that
`getRelease` sets, and `maxDelay`, which it leaves at the default; the other
defaults (no per-error attempt limit, a background context that is never
cancelled, an `OnRetry` hook that does nothing) have no effect.
`LastErrorOnly(true)` is built in: the error handed back is the last of the log.
The `*Config` argument of the delay function is dropped, the closure in
`getRelease` ignores it, as it ignores the attempt number it is given.
`Attempts(0)`, retrying for ever, is not covered. -/

structure Config where
  attempts : Nat
  retryIf : GoError → Bool
  delayType : Nat → GoError → Duration
  maxDelay : Duration

/-- The function `delay` of retry-go: the configured delay, capped by a positive
`maxDelay`. -/
def delay (config : Config) (n : Nat) (err : GoError) : Duration :=
  let delayTime := config.delayType n err
  if config.maxDelay > 0 ∧ delayTime > config.maxDelay then config.maxDelay else delayTime

/-- The method `Error.Unwrap` of retry-go: the last error of the log. -/
def unwrap (errorLog : List GoError) : Option GoError := errorLog.getLast?

/-- The loop `for shouldRetry` of `retry.DoWithData`; `n` is the attempt counter
and `fuel` bounds the iterations (`attempts` of them are enough, see
`retryLoop_fuel`). A nil `[]byte` is `[]`. -/
def retryLoop (config : Config) (retryableFunc : World → (Bytes × Option GoError) × World) :
    Nat → Nat → List GoError → World → (Bytes × Option GoError) × World
  | 0, _, errorLog, w => (([], unwrap errorLog), w)
  | fuel + 1, n, errorLog, w =>
    match retryableFunc w with
    | ((t, none), w1) => ((t, none), w1)
    | ((_, some err), w1) =>
      let errorLog := errorLog ++ [err]
      if !config.retryIf err then (([], unwrap errorLog), w1)
      else if n == config.attempts - 1 then (([], unwrap errorLog), w1)
      else
        let w2 := w1.sleep (delay config n err)
        if n + 1 < config.attempts then retryLoop config retryableFunc fuel (n + 1) errorLog w2
        else (([], unwrap errorLog), w2)

/-- The function `retry.DoWithData` for a positive number of attempts. -/
def DoWithData (retryableFunc : World → (Bytes × Option GoError) × World) (config : Config)
    (w : World) : (Bytes × Option GoError) × World :=
  retryLoop config retryableFunc config.attempts 0 [] w

/-! ### github.go -/

/-- The URL `fmt.Sprintf("%v://%v/%v/%v", ...)` of `getRelease`. -/
def requestURL (gp : GithubProvider) : String :=
  githubAPI_SCHEME ++ "://" ++ githubAPI_URL ++ "/" ++ gp.Path ++ "/" ++ lastReleaseReq

/-- One request of `client.Get`: the answer that the client hands back, or the
URL of the redirect that it follows. -/
inductive GetStep where
  | done (res : GetResult)
  | next (url : String)

/-- One pass of the loop of `http.Client.do` for a GET request: the request is
sent; a transport error ends the call; a response whose status asks for a
redirect and that carries a `Location` is followed, unless the `Location` does
not parse; every other response is handed back. -/
def getStep (env : Env) (client : Client) (url : String) (i : Nat) : GetStep :=
  match client url i with
  | .failed err => .done (.failed err)
  | .response StatusCode Location readAll =>
    if shouldRedirect StatusCode && Location != "" then
      match env.resolve url Location with
      | (_, some err) => .done (.failed err)
      | (u, none) => .next u
    else .done (.response StatusCode Location readAll)

/-- The loop of `http.Client.do` for a GET request; `left` is the number of
requests that may follow this one, and `defaultCheckRedirect` refuses the
redirect after the tenth request. -/
def doGet (env : Env) (client : Client) : Nat → String → World → GetResult × World
  | 0, url, w =>
    match getStep env client url w.requests with
    | .done res => (res, w.request)
    | .next _ => (.failed errTooManyRedirects, w.request)
  | left + 1, url, w =>
    match getStep env client url w.requests with
    | .done res => (res, w.request)
    | .next u => doGet env client left u w.request

/-- Go's `client.Get(url)` for a URL that parses: at most ten requests. -/
def Get (env : Env) (client : Client) (url : String) (w : World) : GetResult × World :=
  doGet env client 9 url w

/-- The closure that `getRelease` retries: one `Get`, then the status check and
the read of the body. -/
def getReleaseAttempt (env : Env) (client : Client) (url : String) (w : World) :
    (Bytes × Option GoError) × World :=
  match Get env client url w with
  | (.failed err, w1) => (([], some err), w1)
  | (.response StatusCode _ readAll, w1) =>
    if StatusCode != StatusOK then
      if StatusCode == StatusForbidden then (([], some errRateLimit), w1)
      else (([], some errNo200), w1)
    else
      match readAll with
      | (_, some err) => (([], some err), w1)
      | (body, none) => ((body, none), w1)

/-- The options `getRelease` passes to `retry.DoWithData`. -/
def getReleaseConfig : Config where
  attempts := 100
  retryIf := fun err => err != errNo200
  delayType := fun _ _ => githubRateLimitWait
  maxDelay := 0

/-- The method `getRelease`, for a request URL that parses. The result is `none`
when the call panics: a nil `client` is dereferenced by the first `Get`. -/
def getRelease (env : Env) (gp : GithubProvider) (w : World) :
    Option (ReleaseInfo × Option GoError) × World :=
  match gp.client with
  | none => (none, w)
  | some client =>
    match DoWithData (getReleaseAttempt env client (requestURL gp)) getReleaseConfig w with
    | ((_, some err), w1) => (some (ReleaseInfo.zero, some err), w1)
    | ((body, none), w1) =>
      match env.unmarshal body with
      | (ri, some err) => (some (ri, some err), w1)
      | (ri, none) => (some (ri, none), w1)

/-- The method `updateRelease`. -/
def updateRelease (gp : GithubProvider) (release : ReleaseInfo) : GithubProvider :=
  { gp with Release := release }

/-- The method `newReleaseExist`; `none` when `getRelease` panics. -/
def newReleaseExist (env : Env) (gp : GithubProvider) (w : World) :
    Option (Bool × Option GoError) × GithubProvider × World :=
  match getRelease env gp w with
  | (none, w1) => (none, gp, w1)
  | (some (_, some err), w1) => (some (false, some err), gp, w1)
  | (some (newRelease, none), w1) =>
    if newRelease.TagName != gp.Release.TagName then
      (some (true, none), updateRelease gp newRelease, w1)
    else (some (false, none), gp, w1)

/-- Go's `strings.Split(s, sep)` for a separator of one character, on the
characters of `s`. -/
def splitChars (sep : Char) : List Char → List (List Char)
  | [] => [[]]
  | c :: cs =>
    if c = sep then [] :: splitChars sep cs
    else
      match splitChars sep cs with
      | [] => [[c]]
      | seg :: rest => (c :: seg) :: rest

/-- Go's `strings.Split(s, "/")`. -/
def stringsSplitSlash (s : String) : List String :=
  (splitChars '/' s.data).map String.mk

/-- The method `getName`: `path[1]`; `none` when the index is out of range and
the call panics. -/
def getName (gp : GithubProvider) : Option String :=
  (stringsSplitSlash gp.Path)[1]?

/-- The method `GetName`. -/
def GetName (gp : GithubProvider) : String := gp.Path

/-- How a call of `WatchReleases` stands: it returned its five results, it
panicked, or it is still in its loop when the fuel is spent. -/
inductive WatchResult where
  | returned (name release description link : String) (err : Option GoError)
  | panicked
  | polling
deriving DecidableEq

/-- The method `WatchReleases`; `fuel` bounds the number of polls. The named
results `name`, `release`, `description`, `link` are still empty at the bare
`return`. -/
def WatchReleases (env : Env) : Nat → GithubProvider → World →
    WatchResult × GithubProvider × World
  | 0, gp, w => (.polling, gp, w)
  | fuel + 1, gp, w =>
    match newReleaseExist env gp w with
    | (none, gp1, w1) => (.panicked, gp1, w1)
    | (some (_, some err), gp1, w1) => (.returned "" "" "" "" (some err), gp1, w1)
    | (some (true, none), gp1, w1) =>
      match getName gp1 with
      | none => (.panicked, gp1, w1)
      | some name =>
        (.returned name gp1.Release.TagName gp1.Release.Body gp1.Release.HtmlUrl none, gp1, w1)
    | (some (false, none), gp1, w1) => WatchReleases env fuel gp1 (w1.sleep getReleaseRate)

/-- The function `New`; the first component is `none` when the call panics,
which it never does, the client being set before the fetch. A nil `client`
argument is `none`. -/
def New (env : Env) (path : String) (client : Option Client) (w : World) :
    Option (Option GithubProvider × Option GoError) × World :=
  let gp : GithubProvider := { Path := path, Release := ReleaseInfo.zero, client := client }
  let gp : GithubProvider :=
    if gp.client.isNone then { gp with client := some env.defaultClient } else gp
  match getRelease env gp w with
  | (none, w1) => (none, w1)
  | (some (_, some err), w1) => (some (none, some err), w1)
  | (some (release, none), w1) => (some (some { gp with Release := release }, none), w1)

end github

/-! ## Package slack -/

namespace slack

/-- The struct `SlackReciever`. -/
structure SlackReciever where
  ChannelName : String
  Hook : String
deriving DecidableEq

/-- An `*http.Request` as far as `SendData` sets it. -/
structure Request where
  method : String
  url : String
  body : Bytes
  header : List (String × String)
deriving DecidableEq

/-- The answer to one HTTP request, and what `client.Do(req)` hands back: an
error, or a response with its status code and its `Location` header (empty when
there is none). -/
inductive DoResult where
  | failed (err : GoError)
  | response (StatusCode : Nat) (Location : String)
deriving DecidableEq

/-- A request as it goes over the wire: its method, its URL and its body. The
headers, which the client copies and extends from one redirect to the next, are
not recorded. -/
structure Hop where
  method : String
  url : String
  body : Bytes
deriving DecidableEq

/-- The requests handed to `client.Do` so far, and the requests that went over
the wire so far, those of followed redirects included; oldest first. -/
structure World where
  sent : List Request
  wire : List Hop
deriving DecidableEq

/-- What the receiver needs from outside: `json.Marshal` of a
`map[string]string` (given as its key and value pairs), the error
`http.NewRequest` reports for a URL it cannot parse, `req.URL.Parse(loc)` for
the `Location` header `loc` of the answer to a request for `url` (the URL it
stands for, and the error when it does not parse), and the answer of the network
to a request when `i` requests went over the wire before it. -/
structure Env where
  marshal : List (String × String) → Bytes × Option GoError
  parseURL : String → Option GoError
  resolve : String → String → String × Option GoError
  roundTrip : Hop → Nat → DoResult

def StatusOK : Nat := 200

/-- The function `New`. -/
def New (channelname hook : String) : SlackReciever :=
  { ChannelName := channelname, Hook := hook }

/-- The method `GetName`. -/
def GetName (sr : SlackReciever) : String :=
  "Slack channel " ++ sr.ChannelName ++ " "

/-- Go's `http.NewRequest` for a valid method: it fails when the URL does not
parse, and otherwise makes a request with no header. -/
def NewRequest (env : Env) (method url : String) (body : Bytes) : Except GoError Request :=
  match env.parseURL url with
  | some err => .error err
  | none => .ok { method := method, url := url, body := body, header := [] }

/-- The message `fmt.Sprintf("%v. Release: %v\n%v\n\n%v", ...)` of `SendData`. -/
def messageText (name release description link : String) : String :=
  name ++ ". Release: " ++ release ++ "\n" ++ description ++ "\n\n" ++ link

/-- The map `SendData` marshals. -/
def payload (sr : SlackReciever) (name release description link : String) :
    List (String × String) :=
  [("text", messageText name release description link), ("channel", sr.ChannelName)]

/-- One request of `client.Do`: the answer that the client hands back, or the
request of the redirect that it follows. -/
inductive DoStep where
  | done (res : DoResult)
  | next (hop : Hop)

/-- One pass of the loop of `http.Client.do`, `ireq` being the request that
`Do` was called with: the request `hop` is sent; a transport error ends the
call; a response whose status asks for a redirect and that carries a `Location`
is followed, unless the `Location` does not parse; every other response is
handed back. The body of `ireq` is a `*bytes.Buffer`, so that `GetBody` is set
and 307 and 308 send the body again. -/
def doStep (env : Env) (ireq : Request) (hop : Hop) (i : Nat) : DoStep :=
  match env.roundTrip hop i with
  | .failed err => .done (.failed err)
  | .response StatusCode Location =>
    if shouldRedirect StatusCode && Location != "" then
      match env.resolve hop.url Location with
      | (_, some err) => .done (.failed err)
      | (u, none) =>
        .next ⟨redirectMethod StatusCode hop.method, u,
          if includeBody StatusCode then ireq.body else []⟩
    else .done (.response StatusCode Location)

/-- The loop of `http.Client.do`; `left` is the number of requests that may
follow this one, and `defaultCheckRedirect` refuses the redirect after the
tenth request. -/
def doLoop (env : Env) (ireq : Request) : Nat → Hop → World → DoResult × World
  | 0, hop, w =>
    match doStep env ireq hop w.wire.length with
    | .done res => (res, ⟨w.sent, w.wire ++ [hop]⟩)
    | .next _ => (.failed errTooManyRedirects, ⟨w.sent, w.wire ++ [hop]⟩)
  | left + 1, hop, w =>
    match doStep env ireq hop w.wire.length with
    | .done res => (res, ⟨w.sent, w.wire ++ [hop]⟩)
    | .next hop1 => doLoop env ireq left hop1 ⟨w.sent, w.wire ++ [hop]⟩

/-- Go's `client.Do(req)` for the client `&http.Client{}`: at most ten requests
go over the wire. -/
def Do (env : Env) (req : Request) (w : World) : DoResult × World :=
  doLoop env req 9 ⟨req.method, req.url, req.body⟩ ⟨w.sent ++ [req], w.wire⟩

/-- The method `SendData`. -/
def SendData (env : Env) (sr : SlackReciever) (name release description link : String)
    (w : World) : Option GoError × World :=
  let url := sr.Hook
  match env.marshal (payload sr name release description link) with
  | (_, some err) => (some err, w)
  | (body, none) =>
    match NewRequest env "POST" url body with
    | .error err => (some err, w)
    | .ok req =>
      let req := { req with header := req.header ++ [("Content-Type", "application/json")] }
      match Do env req w with
      | (.failed err, w1) => (some err, w1)
      | (.response StatusCode _, w1) =>
        if StatusCode != StatusOK then (some slackNo200Err, w1)
        else (none, w1)

end slack

/-! ## Polls in a row, and concrete inputs -/

namespace github

/-- What the next `n` calls of `getRelease` by the loop of `WatchReleases` hand
back, the loop sleeping `getReleaseRate` after each. -/
def fetchSeq (env : Env) (gp : GithubProvider) :
    Nat → World → List (Option (ReleaseInfo × Option GoError))
  | 0, _ => []
  | n + 1, w =>
    (getRelease env gp w).1 :: fetchSeq env gp n ((getRelease env gp w).2.sleep getReleaseRate)

/-- A decoder for the examples: four bodies stand for four releases, every other
body is rejected. -/
def sampleUnmarshal : Bytes → ReleaseInfo × Option GoError
  | [0] => (⟨"v1.0", "first", "https://x/r/v1.0"⟩, none)
  | [1] => (⟨"v1.0", "edited", "https://x/r/v1.0#notes"⟩, none)
  | [2] => (⟨"v1.1", "fix", "https://x/r/v1.1"⟩, none)
  | [3] => (⟨"v2.0", "", ""⟩, none)
  | _ => (ReleaseInfo.zero, some (other "invalid character"))

/-- A source that always answers release v1.0, its text changing from poll to
poll. -/
def steadyClient : Client :=
  fun _ i => .response 200 "" (if i % 2 = 0 then [1] else [0], none)

/-- A source that answers release v1.1. -/
def changedClient : Client :=
  fun _ _ => .response 200 "" ([2], none)

/-- A source that answers 403 three times and then release v2.0 (scenario C). -/
def thriceLimitedClient : Client :=
  fun _ i => if i < 3 then .response 403 "" ([], none) else .response 200 "" ([3], none)

/-- A source that always answers 403. -/
def limitedClient : Client :=
  fun _ _ => .response 403 "" ([], none)

/-- A source that answers 500 once and release v1.1 from then on (scenario D). -/
def brokenOnceClient : Client :=
  fun _ i => if i = 0 then .response 500 "" ([], none) else .response 200 "" ([2], none)

/-- A source that answers the first request with 302 and a `Location`, and every
later request with release v1.1. -/
def movedClient : Client :=
  fun _ i =>
    if i = 0 then .response 302 "https://api.github.com/repos/owner/moved/releases/latest"
      ([], none)
    else .response 200 "" ([2], none)

/-- An environment for the examples: every `Location` is an absolute URL that
parses. -/
def sampleEnv : Env := ⟨steadyClient, sampleUnmarshal, fun _ loc => (loc, none)⟩

def v10 : ReleaseInfo := ⟨"v1.0", "first", "https://x/r/v1.0"⟩

def v11 : ReleaseInfo := ⟨"v1.1", "fix", "https://x/r/v1.1"⟩

def start : World := ⟨0, []⟩

end github

namespace slack

/-- A sink for the examples: the payload is encoded as its text field, every
URL parses, and the sink answers 201. -/
def sampleEnv : Env where
  marshal := fun kvs => (((kvs.lookup "text").getD "").data.map (fun c => UInt8.ofNat c.toNat), none)
  parseURL := fun _ => none
  resolve := fun _ loc => (loc, none)
  roundTrip := fun _ _ => .response 201 ""

/-- A sink that answers the first request with 307 and the hook itself as
`Location`, and every later request with 200. -/
def redirectingEnv : Env where
  marshal := fun kvs => (((kvs.lookup "text").getD "").data.map (fun c => UInt8.ofNat c.toNat), none)
  parseURL := fun _ => none
  resolve := fun _ loc => (loc, none)
  roundTrip := fun _ i =>
    if i = 0 then .response 307 "https://hooks.example/T0" else .response 200 ""

def sampleReciever : SlackReciever := ⟨"releases", "https://hooks.example/T0"⟩

end slack

/-! ## The retry loop of `getRelease` -/

namespace github

theorem delay_getReleaseConfig (n : Nat) (err : GoError) :
    delay getReleaseConfig n err = githubRateLimitWait := by
  simp [delay, getReleaseConfig]

theorem shouldRedirect_forbidden : shouldRedirect StatusForbidden = false := by decide

theorem shouldRedirect_ok : shouldRedirect StatusOK = false := by decide

/-- A response that is not a redirect with a `Location` is handed back by `Get`
after one request. -/
theorem Get_of_response (env : Env) (client : Client) (url : String) (w : World)
    (status : Nat) (loc : String) (b : Bytes × Option GoError)
    (hfollow : ¬ (shouldRedirect status = true ∧ loc ≠ ""))
    (h : client url w.requests = .response status loc b) :
    Get env client url w = (.response status loc b, w.request) := by
  have hcond : (shouldRedirect status && loc != "") = false := by
    cases hs : shouldRedirect status with
    | false => rfl
    | true =>
      have hloc : loc = "" := by
        by_contra hne
        exact hfollow ⟨hs, hne⟩
      simp [hloc]
  simp [Get, doGet, getStep, h, hcond]

theorem getReleaseAttempt_forbidden (env : Env) (client : Client) (url : String) (w : World)
    (loc : String) (b : Bytes × Option GoError)
    (h : client url w.requests = .response StatusForbidden loc b) :
    getReleaseAttempt env client url w = (([], some errRateLimit), w.request) := by
  have hget := Get_of_response env client url w StatusForbidden loc b
    (by simp [shouldRedirect_forbidden]) h
  simp [getReleaseAttempt, hget, StatusForbidden, StatusOK]

theorem getReleaseAttempt_ok (env : Env) (client : Client) (url : String) (w : World)
    (loc : String) (body : Bytes)
    (h : client url w.requests = .response StatusOK loc (body, none)) :
    getReleaseAttempt env client url w = ((body, none), w.request) := by
  have hget := Get_of_response env client url w StatusOK loc (body, none)
    (by simp [shouldRedirect_ok]) h
  simp [getReleaseAttempt, hget]

theorem getReleaseAttempt_hard (env : Env) (client : Client) (url : String) (w : World)
    (status : Nat) (loc : String) (b : Bytes × Option GoError)
    (h200 : status ≠ StatusOK) (h403 : status ≠ StatusForbidden)
    (hfollow : ¬ (shouldRedirect status = true ∧ loc ≠ ""))
    (h : client url w.requests = .response status loc b) :
    getReleaseAttempt env client url w = (([], some errNo200), w.request) := by
  have hget := Get_of_response env client url w status loc b hfollow h
  simp [getReleaseAttempt, hget, h200, h403]

theorem unwrap_append (errorLog : List GoError) (err : GoError) :
    unwrap (errorLog ++ [err]) = some err := by
  simp [unwrap]

theorem retryLoop_ok (config : Config) (f : World → (Bytes × Option GoError) × World)
    (fuel n : Nat) (errorLog : List GoError) (w w1 : World) (t : Bytes)
    (hf : f w = ((t, none), w1)) :
    retryLoop config f (fuel + 1) n errorLog w = ((t, none), w1) := by
  simp [retryLoop, hf]

theorem retryLoop_stop (config : Config) (f : World → (Bytes × Option GoError) × World)
    (fuel n : Nat) (errorLog : List GoError) (w w1 : World) (t : Bytes) (err : GoError)
    (hf : f w = ((t, some err), w1)) (hretry : config.retryIf err = false) :
    retryLoop config f (fuel + 1) n errorLog w = (([], some err), w1) := by
  simp [retryLoop, hf, hretry, unwrap_append]

theorem retryLoop_last (config : Config) (f : World → (Bytes × Option GoError) × World)
    (fuel n : Nat) (errorLog : List GoError) (w w1 : World) (t : Bytes) (err : GoError)
    (hf : f w = ((t, some err), w1)) (hn : n = config.attempts - 1) :
    retryLoop config f (fuel + 1) n errorLog w = (([], some err), w1) := by
  simp [retryLoop, hf, hn, unwrap_append]

theorem retryLoop_retry (config : Config) (f : World → (Bytes × Option GoError) × World)
    (fuel n : Nat) (errorLog : List GoError) (w w1 : World) (t : Bytes) (err : GoError)
    (hf : f w = ((t, some err), w1)) (hretry : config.retryIf err = true)
    (hn : n + 1 < config.attempts) :
    retryLoop config f (fuel + 1) n errorLog w
      = retryLoop config f fuel (n + 1) (errorLog ++ [err]) (w1.sleep (delay config n err)) := by
  have hne : ¬ n = config.attempts - 1 := by omega
  simp [retryLoop, hf, hretry, hne, hn]

/-- After `k` rate-limited answers and one good answer the loop hands back the
body, having sent `k + 1` requests and waited `k` times. -/
theorem retryLoop_rateLimited_ok (env : Env) (client : Client) (url : String) (loc : String)
    (body : Bytes) :
    ∀ (k fuel n : Nat) (errorLog : List GoError) (w : World),
      k < fuel → n + k < 100 →
      (∀ i, i < k → ∃ l b, client url (w.requests + i) = .response StatusForbidden l b) →
      client url (w.requests + k) = .response StatusOK loc (body, none) →
      retryLoop getReleaseConfig (getReleaseAttempt env client url) fuel n errorLog w
        = ((body, none),
            ⟨w.requests + k + 1, w.sleeps ++ List.replicate k githubRateLimitWait⟩) := by
  intro k
  induction k with
  | zero =>
    intro fuel n errorLog w hfuel _ _ hok
    obtain ⟨f, rfl⟩ : ∃ f, fuel = f + 1 := ⟨fuel - 1, by omega⟩
    simp only [Nat.add_zero] at hok
    rw [retryLoop_ok _ _ _ _ _ _ _ _ (getReleaseAttempt_ok env client url w loc body hok)]
    simp [World.request]
  | succ k ih =>
    intro fuel n errorLog w hfuel hn hrl hok
    obtain ⟨f, rfl⟩ : ∃ f, fuel = f + 1 := ⟨fuel - 1, by omega⟩
    obtain ⟨l, b, hb⟩ := hrl 0 (by omega)
    simp only [Nat.add_zero] at hb
    rw [retryLoop_retry _ _ _ _ _ _ _ _ _ (getReleaseAttempt_forbidden env client url w l b hb) rfl
      (by simp only [getReleaseConfig]; omega), delay_getReleaseConfig]
    rw [ih f (n + 1) (errorLog ++ [errRateLimit]) ((w.request).sleep githubRateLimitWait)
      (by omega) (by omega)
      (by
        intro i hi
        obtain ⟨l2, b2, hb2⟩ := hrl (i + 1) (by omega)
        exact ⟨l2, b2, by
          simpa [World.request, World.sleep, Nat.add_assoc, Nat.add_comm 1 i] using hb2⟩)
      (by simpa [World.request, World.sleep, Nat.add_assoc, Nat.add_comm 1 k] using hok)]
    simp [World.request, World.sleep, List.replicate_succ, Nat.add_assoc, Nat.add_comm 1 k]

/-- When every answer is rate-limited the loop stops with `errRateLimit` at the
attempt numbered 99, without a wait after it. -/
theorem retryLoop_rateLimited_exhaust (env : Env) (client : Client) (url : String) :
    ∀ (k fuel n : Nat) (errorLog : List GoError) (w : World),
      k < fuel → n + k = 99 →
      (∀ i, i < k + 1 → ∃ l b, client url (w.requests + i) = .response StatusForbidden l b) →
      retryLoop getReleaseConfig (getReleaseAttempt env client url) fuel n errorLog w
        = (([], some errRateLimit),
            ⟨w.requests + k + 1, w.sleeps ++ List.replicate k githubRateLimitWait⟩) := by
  intro k
  induction k with
  | zero =>
    intro fuel n errorLog w hfuel hn hrl
    obtain ⟨f, rfl⟩ : ∃ f, fuel = f + 1 := ⟨fuel - 1, by omega⟩
    obtain ⟨l, b, hb⟩ := hrl 0 (by omega)
    simp only [Nat.add_zero] at hb
    rw [retryLoop_last _ _ _ _ _ _ _ _ _ (getReleaseAttempt_forbidden env client url w l b hb)
      (by simp only [getReleaseConfig]; omega)]
    simp [World.request]
  | succ k ih =>
    intro fuel n errorLog w hfuel hn hrl
    obtain ⟨f, rfl⟩ : ∃ f, fuel = f + 1 := ⟨fuel - 1, by omega⟩
    obtain ⟨l, b, hb⟩ := hrl 0 (by omega)
    simp only [Nat.add_zero] at hb
    rw [retryLoop_retry _ _ _ _ _ _ _ _ _ (getReleaseAttempt_forbidden env client url w l b hb) rfl
      (by simp only [getReleaseConfig]; omega), delay_getReleaseConfig]
    rw [ih f (n + 1) (errorLog ++ [errRateLimit]) ((w.request).sleep githubRateLimitWait)
      (by omega) (by omega)
      (by
        intro i hi
        obtain ⟨l2, b2, hb2⟩ := hrl (i + 1) (by omega)
        exact ⟨l2, b2, by
          simpa [World.request, World.sleep, Nat.add_assoc, Nat.add_comm 1 i] using hb2⟩)]
    simp [World.request, World.sleep, List.replicate_succ, Nat.add_assoc, Nat.add_comm 1 k]

/-- The loop does not depend on its fuel once the fuel covers the attempts that
are left. -/
theorem retryLoop_fuel (config : Config) (f : World → (Bytes × Option GoError) × World) :
    ∀ (d fuel n : Nat) (errorLog : List GoError) (w : World),
      config.attempts = n + d → 0 < d → d ≤ fuel →
      retryLoop config f fuel n errorLog w = retryLoop config f d n errorLog w := by
  intro d
  induction d with
  | zero => intro fuel n errorLog w _ hd; omega
  | succ d ih =>
    intro fuel n errorLog w hatt _ hfuel
    obtain ⟨g, rfl⟩ : ∃ g, fuel = g + 1 := ⟨fuel - 1, by omega⟩
    rcases hres : f w with ⟨⟨t, _ | err⟩, w1⟩
    · rw [retryLoop_ok _ _ _ _ _ _ _ _ hres, retryLoop_ok _ _ _ _ _ _ _ _ hres]
    · cases hretry : config.retryIf err with
      | false => rw [retryLoop_stop _ _ _ _ _ _ _ _ _ hres hretry,
          retryLoop_stop _ _ _ _ _ _ _ _ _ hres hretry]
      | true =>
        by_cases hlast : n = config.attempts - 1
        · rw [retryLoop_last _ _ _ _ _ _ _ _ _ hres hlast,
            retryLoop_last _ _ _ _ _ _ _ _ _ hres hlast]
        · rw [retryLoop_retry _ _ _ _ _ _ _ _ _ hres hretry (by omega),
            retryLoop_retry _ _ _ _ _ _ _ _ _ hres hretry (by omega)]
          exact ih g (n + 1) _ _ (by omega) (by omega) (by omega)

theorem DoWithData_getReleaseConfig (f : World → (Bytes × Option GoError) × World) (w : World) :
    DoWithData f getReleaseConfig w = retryLoop getReleaseConfig f 100 0 [] w := rfl

/-- The provider's `getRelease` hands back what `json.Unmarshal` makes of the
body that the retry loop hands back. -/
theorem getRelease_of_body (env : Env) (gp : GithubProvider) (client : Client) (w w1 : World)
    (body : Bytes) (hc : gp.client = some client)
    (h : DoWithData (getReleaseAttempt env client (requestURL gp)) getReleaseConfig w
      = ((body, none), w1)) :
    getRelease env gp w = (some (env.unmarshal body), w1) := by
  simp only [getRelease, hc, h]
  rcases env.unmarshal body with ⟨ri, _ | err⟩ <;> rfl

theorem getRelease_of_error (env : Env) (gp : GithubProvider) (client : Client) (w w1 : World)
    (t : Bytes) (err : GoError) (hc : gp.client = some client)
    (h : DoWithData (getReleaseAttempt env client (requestURL gp)) getReleaseConfig w
      = ((t, some err), w1)) :
    getRelease env gp w = (some (ReleaseInfo.zero, some err), w1) := by
  simp only [getRelease, hc, h]

/-- With a client, `getRelease` does not panic. -/
theorem getRelease_of_client (env : Env) (gp : GithubProvider) (client : Client) (w : World)
    (hc : gp.client = some client) :
    ∃ res w1, getRelease env gp w = (some res, w1) := by
  rcases h : DoWithData (getReleaseAttempt env client (requestURL gp)) getReleaseConfig w
    with ⟨⟨t, _ | err⟩, w1⟩
  · exact ⟨_, _, getRelease_of_body env gp client w w1 t hc h⟩
  · exact ⟨_, _, getRelease_of_error env gp client w w1 t err hc h⟩

/-! ## Claims about `getRelease` -/

/-- C4, as the code has it: a first answer whose status is neither 200 nor 403
and that is not a redirect which the client follows (a status 301, 302, 303,
307 or 308 with a `Location` header) is not retried: `getRelease` sends exactly
one request, waits zero times and returns `errNo200`, whatever the client would
answer to later requests. -/
theorem getRelease_hard_failure_not_retried (env : Env) (gp : GithubProvider) (client : Client)
    (w : World) (status : Nat) (loc : String) (b : Bytes × Option GoError)
    (hc : gp.client = some client) (h200 : status ≠ 200) (h403 : status ≠ 403)
    (hfollow : ¬ (shouldRedirect status = true ∧ loc ≠ ""))
    (h : client (requestURL gp) w.requests = .response status loc b) :
    getRelease env gp w
      = (some (ReleaseInfo.zero, some errNo200), ⟨w.requests + 1, w.sleeps⟩) := by
  apply getRelease_of_error env gp client w _ [] errNo200 hc
  rw [DoWithData_getReleaseConfig]
  exact retryLoop_stop _ _ _ _ _ _ _ _ _
    (getReleaseAttempt_hard env client _ w status loc b h200 h403 hfollow h) rfl

theorem getRelease_hard_failure_not_retried_witness :
    getRelease sampleEnv ⟨"owner/repo", v10, some brokenOnceClient⟩ start
      = (some (ReleaseInfo.zero, some errNo200), ⟨1, []⟩) :=
  getRelease_hard_failure_not_retried sampleEnv ⟨"owner/repo", v10, some brokenOnceClient⟩
    brokenOnceClient start 500 "" ([], none) rfl (by decide) (by decide) (by decide) rfl

/-- C4, as the claim has it, fails: the status 302 is neither 200 nor 403, and
when the first answer is a 302 with a `Location` the client follows it inside
`Get`; `getRelease` then sends a second request and returns the release of the
answer 200 with a nil error, not `errNo200` after one request. -/
theorem getRelease_follows_redirect :
    (302 ≠ 200 ∧ 302 ≠ 403)
      ∧ movedClient "https://api.github.com/repos/owner/repo/releases/latest" 0
        = .response 302 "https://api.github.com/repos/owner/moved/releases/latest" ([], none)
      ∧ getRelease sampleEnv ⟨"owner/repo", v10, some movedClient⟩ start
        = (some (v11, none), ⟨2, []⟩)
      ∧ ¬ getRelease sampleEnv ⟨"owner/repo", v10, some movedClient⟩ start
        = (some (ReleaseInfo.zero, some errNo200), ⟨1, []⟩) := by
  decide

/-- C5: rate-limited answers are retried after a constant wait and use up the
attempts. After `k < 100` answers 403 and an answer 200 the retry loop hands
back that body, and `getRelease` what `json.Unmarshal` makes of it, with `k + 1`
requests sent and `k` waits of `githubRateLimitWait`. After 100 answers 403 it
stops with `errRateLimit`, 100 requests sent and 99 waits made. The delay is
`githubRateLimitWait`, one hour, for every attempt number and every error, and
the 99 waits add up to 99 hours. -/
theorem getRelease_rate_limit_retried (env : Env) (gp : GithubProvider) (client : Client)
    (w : World) (hc : gp.client = some client) :
    (∀ (k : Nat) (loc : String) (body : Bytes), k < 100 →
      (∀ i, i < k → ∃ l b, client (requestURL gp) (w.requests + i) = .response 403 l b) →
      client (requestURL gp) (w.requests + k) = .response 200 loc (body, none) →
      DoWithData (getReleaseAttempt env client (requestURL gp)) getReleaseConfig w
          = ((body, none), ⟨w.requests + (k + 1),
              w.sleeps ++ List.replicate k githubRateLimitWait⟩)
        ∧ getRelease env gp w
          = (some (env.unmarshal body), ⟨w.requests + (k + 1),
              w.sleeps ++ List.replicate k githubRateLimitWait⟩))
    ∧ ((∀ i, i < 100 → ∃ l b, client (requestURL gp) (w.requests + i) = .response 403 l b) →
      getRelease env gp w
        = (some (ReleaseInfo.zero, some errRateLimit), ⟨w.requests + 100,
            w.sleeps ++ List.replicate 99 githubRateLimitWait⟩))
    ∧ (∀ (n : Nat) (err : GoError), delay getReleaseConfig n err = githubRateLimitWait)
    ∧ githubRateLimitWait = 3600 * 1000000000
    ∧ (List.replicate 99 githubRateLimitWait).sum = 99 * Hour := by
  refine ⟨?_, ?_, delay_getReleaseConfig, by decide, ?_⟩
  rotate_left 2
  · rw [List.sum_replicate]; simp [githubRateLimitWait]
  · intro k loc body hk hrl hok
    have hloop : DoWithData (getReleaseAttempt env client (requestURL gp)) getReleaseConfig w
        = ((body, none), ⟨w.requests + (k + 1),
            w.sleeps ++ List.replicate k githubRateLimitWait⟩) := by
      rw [DoWithData_getReleaseConfig]
      exact retryLoop_rateLimited_ok env client _ loc body k 100 0 [] w hk (by omega) hrl hok
    exact ⟨hloop, getRelease_of_body env gp client w _ body hc hloop⟩
  · intro hrl
    apply getRelease_of_error env gp client w _ [] errRateLimit hc
    rw [DoWithData_getReleaseConfig]
    exact retryLoop_rateLimited_exhaust env client _ 99 100 0 [] w (by omega) (by omega) hrl

theorem getRelease_rate_limit_retried_witness :
    getRelease sampleEnv ⟨"owner/repo", v10, some limitedClient⟩ start
        = (some (ReleaseInfo.zero, some errRateLimit),
            ⟨100, List.replicate 99 githubRateLimitWait⟩)
      ∧ getRelease sampleEnv ⟨"owner/repo", v10, some changedClient⟩ start
        = (some (v11, none), ⟨1, []⟩) :=
  ⟨(getRelease_rate_limit_retried sampleEnv ⟨"owner/repo", v10, some limitedClient⟩
      limitedClient start rfl).2.1 (fun _ _ => ⟨_, _, rfl⟩),
    ((getRelease_rate_limit_retried sampleEnv ⟨"owner/repo", v10, some changedClient⟩
      changedClient start rfl).1 0 "" [2] (by decide) (fun _ hi => absurd hi (by omega)) rfl).2⟩

/-- C6, as the code has it: after three answers 403 and an answer 200,
`getRelease` has sent four requests and waited three times, once after each
rate-limited answer and each time `githubRateLimitWait` (the delay is the same
for the attempts 0, 1 and 2), and it returns what `json.Unmarshal` makes of the
fourth body. -/
theorem getRelease_scenario_C (env : Env) (gp : GithubProvider) (client : Client)
    (w : World) (loc : String) (body : Bytes) (hc : gp.client = some client)
    (hrl : ∀ i, i < 3 → ∃ l b, client (requestURL gp) (w.requests + i) = .response 403 l b)
    (hok : client (requestURL gp) (w.requests + 3) = .response 200 loc (body, none)) :
    getRelease env gp w
        = (some (env.unmarshal body), ⟨w.requests + 4,
            w.sleeps ++ [githubRateLimitWait, githubRateLimitWait, githubRateLimitWait]⟩)
      ∧ ∀ err, delay getReleaseConfig 0 err = githubRateLimitWait
          ∧ delay getReleaseConfig 1 err = githubRateLimitWait
          ∧ delay getReleaseConfig 2 err = githubRateLimitWait := by
  refine ⟨?_, fun err => ⟨delay_getReleaseConfig 0 err, delay_getReleaseConfig 1 err,
    delay_getReleaseConfig 2 err⟩⟩
  apply getRelease_of_body env gp client w _ body hc
  rw [DoWithData_getReleaseConfig]
  exact retryLoop_rateLimited_ok env client _ loc body 3 100 0 [] w (by omega) (by omega) hrl hok

theorem getRelease_scenario_C_witness :
    getRelease sampleEnv ⟨"owner/repo", v10, some thriceLimitedClient⟩ start
      = (some (⟨"v2.0", "", ""⟩, none),
          ⟨4, [githubRateLimitWait, githubRateLimitWait, githubRateLimitWait]⟩) :=
  (getRelease_scenario_C sampleEnv ⟨"owner/repo", v10, some thriceLimitedClient⟩
    thriceLimitedClient start "" [3] rfl (fun i hi => ⟨"", ([], none), by
      show (if 0 + i < 3 then _ else _) = _
      rw [if_pos (by omega)]⟩) rfl).1

/-- C6, as the claim has it, fails: in scenario C (three answers 403, then 200)
`getRelease` returns the fourth answer's release after three waits, not two. -/
theorem getRelease_scenario_C_not_two_waits :
    (∀ i, i < 3 → thriceLimitedClient "https://api.github.com/repos/owner/repo/releases/latest" i
        = .response 403 "" ([], none))
      ∧ thriceLimitedClient "https://api.github.com/repos/owner/repo/releases/latest" 3
        = .response 200 "" ([3], none)
      ∧ (getRelease sampleEnv ⟨"owner/repo", v10, some thriceLimitedClient⟩ start).1
        = some (⟨"v2.0", "", ""⟩, none)
      ∧ (getRelease sampleEnv ⟨"owner/repo", v10, some thriceLimitedClient⟩ start).2.sleeps
        = [githubRateLimitWait, githubRateLimitWait, githubRateLimitWait]
      ∧ ¬ (getRelease sampleEnv ⟨"owner/repo", v10, some thriceLimitedClient⟩ start).2.sleeps.length
        = 2 := by
  decide

/-! ## One poll -/

theorem newReleaseExist_unchanged (env : Env) (gp : GithubProvider) (w w1 : World)
    (r : ReleaseInfo) (h : getRelease env gp w = (some (r, none), w1))
    (htag : r.TagName = gp.Release.TagName) :
    newReleaseExist env gp w = (some (false, none), gp, w1) := by
  simp [newReleaseExist, h, htag]

theorem newReleaseExist_changed (env : Env) (gp : GithubProvider) (w w1 : World)
    (r : ReleaseInfo) (h : getRelease env gp w = (some (r, none), w1))
    (htag : r.TagName ≠ gp.Release.TagName) :
    newReleaseExist env gp w = (some (true, none), ⟨gp.Path, r, gp.client⟩, w1) := by
  simp [newReleaseExist, h, htag, updateRelease]

theorem newReleaseExist_error (env : Env) (gp : GithubProvider) (w w1 : World)
    (r : ReleaseInfo) (e : GoError) (h : getRelease env gp w = (some (r, some e), w1)) :
    newReleaseExist env gp w = (some (false, some e), gp, w1) := by
  simp [newReleaseExist, h]

/-- A call that is still polling after `n` polls goes on from the state it has
reached. -/
theorem WatchReleases_add (env : Env) (m : Nat) (gp1 : GithubProvider) (w1 : World) :
    ∀ (n : Nat) (gp : GithubProvider) (w : World),
      WatchReleases env n gp w = (.polling, gp1, w1) →
      WatchReleases env (n + m) gp w = WatchReleases env m gp1 w1 := by
  intro n
  induction n with
  | zero =>
    intro gp w h
    simp only [WatchReleases, Prod.mk.injEq, true_and] at h
    rw [Nat.zero_add, h.1, h.2]
  | succ n ih =>
    intro gp w h
    rw [Nat.add_right_comm]
    rcases hres : newReleaseExist env gp w with ⟨_ | ⟨b, _ | err⟩, gp2, w2⟩
    · simp [WatchReleases, hres] at h
    · cases b with
      | false =>
        simp only [WatchReleases, hres] at h ⊢
        exact ih gp2 _ h
      | true =>
        simp only [WatchReleases, hres] at h
        cases hname : getName gp2 <;> simp [hname] at h
    · simp [WatchReleases, hres] at h

/-- A changed tag ends the call: with the new record stored, `WatchReleases`
evaluates `getName` and returns the fields of the new record, or panics where
`getName` does. -/
theorem WatchReleases_changed (env : Env) (gp : GithubProvider) (w w1 : World)
    (r : ReleaseInfo) (fuel : Nat) (h : getRelease env gp w = (some (r, none), w1))
    (htag : r.TagName ≠ gp.Release.TagName) :
    WatchReleases env (fuel + 1) gp w
      = (match getName gp with
          | some name => .returned name r.TagName r.Body r.HtmlUrl none
          | none => .panicked, ⟨gp.Path, r, gp.client⟩, w1) := by
  have hname : getName ⟨gp.Path, r, gp.client⟩ = getName gp := rfl
  simp only [WatchReleases, newReleaseExist_changed env gp w w1 r h htag, hname]
  cases getName gp <;> rfl

theorem watch_unchanged_aux (env : Env) (gp : GithubProvider) :
    ∀ (rs : List ReleaseInfo) (w : World),
      fetchSeq env gp rs.length w = rs.map (fun r => some (r, none)) →
      (∀ r ∈ rs, r.TagName = gp.Release.TagName) →
      ∀ n, n ≤ rs.length →
        ∃ wn, WatchReleases env n gp w = (.polling, gp, wn)
          ∧ (n < rs.length → ∃ w1, newReleaseExist env gp wn = (some (false, none), gp, w1)) := by
  intro rs
  induction rs with
  | nil =>
    intro w _ _ n hn
    have hn0 : n = 0 := by simpa using hn
    subst hn0
    exact ⟨w, rfl, fun h => absurd h (by simp)⟩
  | cons r rs ih =>
    intro w hfetch htag n hn
    simp only [List.length_cons, fetchSeq, List.map_cons, List.cons.injEq] at hfetch
    have hget : getRelease env gp w = (some (r, none), (getRelease env gp w).2) :=
      Prod.ext hfetch.1 rfl
    have hpoll := newReleaseExist_unchanged env gp w _ r hget (htag r (by simp))
    cases n with
    | zero => exact ⟨w, rfl, fun _ => ⟨_, hpoll⟩⟩
    | succ n =>
      obtain ⟨wn, hwatch, hnext⟩ := ih _ hfetch.2 (fun r2 h2 => htag r2 (by simp [h2])) n
        (by simpa using hn)
      refine ⟨wn, ?_, fun hlt => hnext (by simpa using hlt)⟩
      simp only [WatchReleases, hpoll]
      exact hwatch

/-! ## Claims about the watch loop and the constructor -/

/-- C1: when the next polls all fetch a release whose `TagName` is the stored
one, with any `Body` and `HtmlUrl`, then after any number `n` of those polls
`WatchReleases` has not returned and the provider is the one it started with,
stored `Release` included, and the next of those polls has `newReleaseExist`
return `(false, nil)` and leave the provider as it is. -/
theorem watch_unchanged_tag_no_release (env : Env) (gp : GithubProvider)
    (rs : List ReleaseInfo) (w : World)
    (hfetch : fetchSeq env gp rs.length w = rs.map (fun r => some (r, none)))
    (htag : ∀ r ∈ rs, r.TagName = gp.Release.TagName) :
    ∀ n, n ≤ rs.length →
      ∃ wn, WatchReleases env n gp w = (.polling, gp, wn)
        ∧ (n < rs.length → ∃ w1, newReleaseExist env gp wn = (some (false, none), gp, w1)) :=
  watch_unchanged_aux env gp rs w hfetch htag

theorem watch_unchanged_tag_no_release_witness :
    ∃ wn, WatchReleases sampleEnv 5 ⟨"owner/repo", v10, some steadyClient⟩ start
      = (.polling, ⟨"owner/repo", v10, some steadyClient⟩, wn) :=
  (watch_unchanged_tag_no_release sampleEnv ⟨"owner/repo", v10, some steadyClient⟩
    [⟨"v1.0", "edited", "https://x/r/v1.0#notes"⟩, v10,
      ⟨"v1.0", "edited", "https://x/r/v1.0#notes"⟩, v10,
      ⟨"v1.0", "edited", "https://x/r/v1.0#notes"⟩] start (by decide) (by decide) 5
    (by decide)).imp (fun _ h => h.1)

/-- C2 at a provider whose `Path` has no slash: the poll that fetches release
v1.1 over the stored v1.0 has `newReleaseExist` return `(true, nil)` and store
the whole new record, and then `WatchReleases` panics in `getName` and returns
nothing; with the `Path` owner/repo the same poll returns the name and the
fields of the new record. -/
theorem watch_changed_tag_panics_without_slash :
    (getRelease sampleEnv ⟨"repo", v10, some changedClient⟩ start).1 = some (v11, none)
      ∧ (newReleaseExist sampleEnv ⟨"repo", v10, some changedClient⟩ start).1
        = some (true, none)
      ∧ (newReleaseExist sampleEnv ⟨"repo", v10, some changedClient⟩ start).2.1.Release = v11
      ∧ (WatchReleases sampleEnv 1 ⟨"repo", v10, some changedClient⟩ start).1 = .panicked
      ∧ (WatchReleases sampleEnv 1 ⟨"owner/repo", v10, some changedClient⟩ start).1
        = .returned "repo" "v1.1" "fix" "https://x/r/v1.1" none := by
  decide

/-- C3: a poll whose `getRelease` returns the error `e` has `newReleaseExist`
return `(false, e)` and `WatchReleases` return four empty strings and `e`, in
its first poll or after any number of polls without a change, and the provider
is left as it was, `Release` and `Path` included. -/
theorem failed_poll_keeps_release (env : Env) (gp : GithubProvider) (w w1 : World)
    (r : ReleaseInfo) (e : GoError) (h : getRelease env gp w = (some (r, some e), w1)) :
    newReleaseExist env gp w = (some (false, some e), gp, w1)
      ∧ (∀ fuel, WatchReleases env (fuel + 1) gp w
          = (.returned "" "" "" "" (some e), gp, w1))
      ∧ (∀ n gp0 w0 fuel, WatchReleases env n gp0 w0 = (.polling, gp, w) →
          WatchReleases env (n + (fuel + 1)) gp0 w0
            = (.returned "" "" "" "" (some e), gp, w1)) := by
  have hpoll := newReleaseExist_error env gp w w1 r e h
  have hwatch : ∀ fuel, WatchReleases env (fuel + 1) gp w
      = (.returned "" "" "" "" (some e), gp, w1) := by
    intro fuel
    simp only [WatchReleases, hpoll]
  refine ⟨hpoll, hwatch, ?_⟩
  intro n gp0 w0 fuel hn
  rw [WatchReleases_add env (fuel + 1) gp w n gp0 w0 hn]
  exact hwatch fuel

theorem failed_poll_keeps_release_witness :
    WatchReleases sampleEnv 1 ⟨"owner/repo", v10, some brokenOnceClient⟩ start
      = (.returned "" "" "" "" (some errNo200),
          ⟨"owner/repo", v10, some brokenOnceClient⟩, ⟨1, []⟩) :=
  (failed_poll_keeps_release sampleEnv ⟨"owner/repo", v10, some brokenOnceClient⟩ start
    ⟨1, []⟩ ReleaseInfo.zero errNo200 (by decide)).2.1 0

/-- C7: `New` makes one call of `getRelease`, on a provider with the given path
and the given client (the default client for a nil one), and that call does not
panic. When it returns the error `e`, `New` returns `(nil, e)`; when it returns
the release `r` without error, `New` returns, with a nil error, the provider
with the given path and `r` stored, and a poll of that provider that fetches the
same `TagName` reports no change. -/
theorem New_initial_fetch (env : Env) (path : String) (client : Option Client) (w : World) :
    (∃ res w1, getRelease env ⟨path, ReleaseInfo.zero, some (client.getD env.defaultClient)⟩ w
        = (some res, w1))
      ∧ (∀ r e w1,
          getRelease env ⟨path, ReleaseInfo.zero, some (client.getD env.defaultClient)⟩ w
            = (some (r, some e), w1) →
          New env path client w = (some (none, some e), w1))
      ∧ (∀ r w1,
          getRelease env ⟨path, ReleaseInfo.zero, some (client.getD env.defaultClient)⟩ w
            = (some (r, none), w1) →
          New env path client w
              = (some (some ⟨path, r, some (client.getD env.defaultClient)⟩, none), w1)
            ∧ ∀ r2 w2 w3,
                getRelease env ⟨path, r, some (client.getD env.defaultClient)⟩ w2
                  = (some (r2, none), w3) →
                r2.TagName = r.TagName →
                newReleaseExist env ⟨path, r, some (client.getD env.defaultClient)⟩ w2
                  = (some (false, none),
                      ⟨path, r, some (client.getD env.defaultClient)⟩, w3)) := by
  refine ⟨getRelease_of_client env _ _ w rfl, ?_, ?_⟩
  · intro r e w1 h
    cases client <;> simp [New, Option.getD] at h ⊢ <;> simp [h]
  · intro r w1 h
    refine ⟨?_, fun r2 w2 w3 h2 htag => newReleaseExist_unchanged env _ w2 w3 r2 h2 htag⟩
    cases client <;> simp [New, Option.getD] at h ⊢ <;> simp [h]

theorem New_initial_fetch_witness :
    New sampleEnv "owner/repo" none start
        = (some (some ⟨"owner/repo", ⟨"v1.0", "edited", "https://x/r/v1.0#notes"⟩,
            some steadyClient⟩, none), ⟨1, []⟩)
      ∧ New sampleEnv "owner/repo" (some brokenOnceClient) start
        = (some (none, some errNo200), ⟨1, []⟩) :=
  ⟨((New_initial_fetch sampleEnv "owner/repo" none start).2.2
      ⟨"v1.0", "edited", "https://x/r/v1.0#notes"⟩ ⟨1, []⟩ (by decide)).1,
    (New_initial_fetch sampleEnv "owner/repo" (some brokenOnceClient) start).2.1
      ReleaseInfo.zero errNo200 ⟨1, []⟩ (by decide)⟩

/-! ## Claims about `getName` -/

theorem splitChars_no_sep (sep : Char) :
    ∀ cs : List Char, sep ∉ cs → splitChars sep cs = [cs] := by
  intro cs
  induction cs with
  | nil => intro _; rfl
  | cons c cs ih =>
    intro h
    have hc : ¬ c = sep := fun hc => h (by simp [hc])
    have hcs : sep ∉ cs := fun hcs => h (by simp [hcs])
    simp [splitChars, hc, ih hcs]

theorem splitChars_length (sep : Char) :
    ∀ cs : List Char, (splitChars sep cs).length = cs.count sep + 1 := by
  intro cs
  induction cs with
  | nil => rfl
  | cons c cs ih =>
    by_cases hc : c = sep
    · simp [splitChars, hc, ih]
    · have hlen : 0 < (splitChars sep cs).length := by omega
      rcases hsplit : splitChars sep cs with _ | ⟨seg, rest⟩
      · simp [hsplit] at hlen
      · have hcount : (c :: cs).count sep = cs.count sep := List.count_cons_of_ne (Ne.symm hc) cs
        simp only [splitChars, hc, if_false, hsplit, hcount, List.length_cons]
        rw [← ih, hsplit, List.length_cons]

/-- With a slash in the `Path` there is a second segment and `getName` returns
it. -/
theorem getName_of_slash (gp : GithubProvider) (h : '/' ∈ gp.Path.data) :
    ∃ name, getName gp = some name := by
  have hcount : 0 < gp.Path.data.count '/' := List.count_pos_iff.mpr h
  have hlen : 1 < (stringsSplitSlash gp.Path).length := by
    simp only [stringsSplitSlash, List.length_map, splitChars_length]
    omega
  exact ⟨(stringsSplitSlash gp.Path)[1], by simp [getName, List.getElem?_eq_getElem hlen]⟩

/-- C10 at a `Path` without a slash: `strings.Split` yields one segment, the
index 1 is out of range, and `getName` panics instead of returning a name. -/
theorem getName_panics_without_slash (gp : GithubProvider) (h : '/' ∉ gp.Path.data) :
    getName gp = none := by
  simp [getName, stringsSplitSlash, splitChars_no_sep '/' gp.Path.data h]

theorem getName_panics_without_slash_witness :
    getName ⟨"repo", v10, some steadyClient⟩ = none
      ∧ getName ⟨"owner/repo", v10, some steadyClient⟩ = some "repo" :=
  ⟨getName_panics_without_slash ⟨"repo", v10, some steadyClient⟩ (by decide), by decide⟩

end github

/-! ## Claims about `SendData` -/

namespace slack

/-- The loop of `client.Do` leaves the log of the requests handed to the client
as it is. -/
theorem doLoop_sent (env : Env) (ireq : Request) :
    ∀ (left : Nat) (hop : Hop) (w : World), (doLoop env ireq left hop w).2.sent = w.sent := by
  intro left
  induction left with
  | zero =>
    intro hop w
    simp only [doLoop]
    cases doStep env ireq hop w.wire.length <;> rfl
  | succ left ih =>
    intro hop w
    simp only [doLoop]
    cases doStep env ireq hop w.wire.length with
    | done res => rfl
    | next hop1 => exact ih hop1 _

/-- An answer that is not a redirect with a `Location` is handed back by `Do`
after one request. -/
theorem Do_of_response (env : Env) (req : Request) (w : World) (status : Nat) (loc : String)
    (hfollow : ¬ (shouldRedirect status = true ∧ loc ≠ ""))
    (h : env.roundTrip ⟨req.method, req.url, req.body⟩ w.wire.length = .response status loc) :
    Do env req w
      = (.response status loc,
          ⟨w.sent ++ [req], w.wire ++ [⟨req.method, req.url, req.body⟩]⟩) := by
  have hcond : (shouldRedirect status && loc != "") = false := by
    cases hs : shouldRedirect status with
    | false => rfl
    | true =>
      have hloc : loc = "" := by
        by_contra hne
        exact hfollow ⟨hs, hne⟩
      simp [hloc]
  simp [Do, doLoop, doStep, h, hcond]

theorem Do_of_failed (env : Env) (req : Request) (w : World) (err : GoError)
    (h : env.roundTrip ⟨req.method, req.url, req.body⟩ w.wire.length = .failed err) :
    Do env req w
      = (.failed err, ⟨w.sent ++ [req], w.wire ++ [⟨req.method, req.url, req.body⟩]⟩) := by
  simp [Do, doLoop, doStep, h]

/-- With the payload marshalled and the hook parsed, `SendData` hands one POST
to `client.Do` and maps what comes back. -/
theorem SendData_of_request (env : Env) (sr : SlackReciever)
    (name release description link : String) (w : World) (body : Bytes)
    (hbody : env.marshal (payload sr name release description link) = (body, none))
    (hurl : env.parseURL sr.Hook = none) :
    SendData env sr name release description link w
      = (match (Do env ⟨"POST", sr.Hook, body, [("Content-Type", "application/json")]⟩ w).1 with
          | .failed err => some err
          | .response StatusCode _ =>
            if StatusCode != StatusOK then some slackNo200Err else none,
          (Do env ⟨"POST", sr.Hook, body, [("Content-Type", "application/json")]⟩ w).2) := by
  simp only [SendData, hbody, NewRequest, hurl, List.nil_append]
  rcases Do env ⟨"POST", sr.Hook, body, [("Content-Type", "application/json")]⟩ w
    with ⟨_ | ⟨StatusCode, loc⟩, w1⟩
  · rfl
  · by_cases h : StatusCode = StatusOK <;> simp [h]

/-- C8, as the code has it: `SendData` calls `client.Do` at most once, with a
POST to the `Hook`, and does not retry. When `json.Marshal` or `http.NewRequest`
fails it returns that error and sends nothing. Otherwise, when the first answer
is a transport error it returns that error, and when the first answer is not a
redirect which the client follows (a status 301, 302, 303, 307 or 308 with a
`Location` header) it returns nil for the status 200 and `slackNo200Err` for
every other status; in these cases exactly one request has gone over the
wire. -/
theorem SendData_one_attempt (env : Env) (sr : SlackReciever)
    (name release description link : String) (w : World) :
    (∀ b e, env.marshal (payload sr name release description link) = (b, some e) →
        SendData env sr name release description link w = (some e, w))
      ∧ (∀ body, env.marshal (payload sr name release description link) = (body, none) →
        (∀ e, env.parseURL sr.Hook = some e →
            SendData env sr name release description link w = (some e, w))
          ∧ (env.parseURL sr.Hook = none →
            (∀ e, env.roundTrip ⟨"POST", sr.Hook, body⟩ w.wire.length = .failed e →
                SendData env sr name release description link w
                  = (some e,
                      ⟨w.sent ++ [⟨"POST", sr.Hook, body,
                          [("Content-Type", "application/json")]⟩],
                        w.wire ++ [⟨"POST", sr.Hook, body⟩]⟩))
              ∧ (∀ loc, env.roundTrip ⟨"POST", sr.Hook, body⟩ w.wire.length
                    = .response 200 loc →
                SendData env sr name release description link w
                  = (none,
                      ⟨w.sent ++ [⟨"POST", sr.Hook, body,
                          [("Content-Type", "application/json")]⟩],
                        w.wire ++ [⟨"POST", sr.Hook, body⟩]⟩))
              ∧ (∀ status loc, status ≠ 200 →
                ¬ (shouldRedirect status = true ∧ loc ≠ "") →
                env.roundTrip ⟨"POST", sr.Hook, body⟩ w.wire.length = .response status loc →
                SendData env sr name release description link w
                  = (some slackNo200Err,
                      ⟨w.sent ++ [⟨"POST", sr.Hook, body,
                          [("Content-Type", "application/json")]⟩],
                        w.wire ++ [⟨"POST", sr.Hook, body⟩]⟩))))
      ∧ ((SendData env sr name release description link w).2.sent = w.sent
        ∨ ∃ body, (SendData env sr name release description link w).2.sent
            = w.sent ++ [⟨"POST", sr.Hook, body, [("Content-Type", "application/json")]⟩]) := by
  refine ⟨?_, ?_, ?_⟩
  · intro b e hm
    simp [SendData, hm]
  · intro body hm
    refine ⟨?_, fun hurl => ⟨?_, ?_, ?_⟩⟩
    · intro e hurl
      simp [SendData, hm, NewRequest, hurl]
    · intro e hdo
      rw [SendData_of_request env sr name release description link w body hm hurl,
        Do_of_failed env _ w e hdo]
    · intro loc hdo
      rw [SendData_of_request env sr name release description link w body hm hurl,
        Do_of_response env _ w 200 loc (fun h => absurd h.1 (by decide)) hdo]
      simp [StatusOK]
    · intro status loc hstatus hfollow hdo
      rw [SendData_of_request env sr name release description link w body hm hurl,
        Do_of_response env _ w status loc hfollow hdo]
      simp [StatusOK, hstatus]
  · rcases hm : env.marshal (payload sr name release description link) with ⟨body, _ | e⟩
    · cases hurl : env.parseURL sr.Hook with
      | none =>
        right
        refine ⟨body, ?_⟩
        rw [SendData_of_request env sr name release description link w body hm hurl]
        exact doLoop_sent env _ 9 _ _
      | some e =>
        left
        simp [SendData, hm, NewRequest, hurl]
    · left
      simp [SendData, hm]

theorem SendData_one_attempt_witness :
    SendData sampleEnv sampleReciever "r" "v1.1" "fix" "https://x/r/v1.1" ⟨[], []⟩
      = (some slackNo200Err,
          ⟨[⟨"POST", "https://hooks.example/T0",
              (sampleEnv.marshal
                (payload sampleReciever "r" "v1.1" "fix" "https://x/r/v1.1")).1,
              [("Content-Type", "application/json")]⟩],
            [⟨"POST", "https://hooks.example/T0",
              (sampleEnv.marshal
                (payload sampleReciever "r" "v1.1" "fix" "https://x/r/v1.1")).1⟩]⟩) :=
  ((SendData_one_attempt sampleEnv sampleReciever "r" "v1.1" "fix" "https://x/r/v1.1"
    ⟨[], []⟩).2.1 _ rfl).2 rfl |>.2.2 201 "" (by decide) (by decide) rfl

/-- C8, as the claim has it, fails: the sink answers the POST with 307, a status
other than 200, and the hook as `Location`; the client follows the redirect
inside `Do` and sends the POST to the hook a second time, the sink answers 200,
and `SendData` returns nil, not `slackNo200Err`, with two requests gone over the
wire. -/
theorem SendData_follows_redirect :
    307 ≠ 200
      ∧ redirectingEnv.roundTrip
          ⟨"POST", "https://hooks.example/T0",
            (redirectingEnv.marshal
              (payload sampleReciever "r" "v1.1" "fix" "https://x/r/v1.1")).1⟩ 0
        = .response 307 "https://hooks.example/T0"
      ∧ (SendData redirectingEnv sampleReciever "r" "v1.1" "fix" "https://x/r/v1.1"
          ⟨[], []⟩).1 = none
      ∧ ¬ (SendData redirectingEnv sampleReciever "r" "v1.1" "fix" "https://x/r/v1.1"
          ⟨[], []⟩).1 = some slackNo200Err
      ∧ ((SendData redirectingEnv sampleReciever "r" "v1.1" "fix" "https://x/r/v1.1"
          ⟨[], []⟩).2.wire.map (fun hop => (hop.method, hop.url)))
        = [("POST", "https://hooks.example/T0"), ("POST", "https://hooks.example/T0")] := by
  decide

/-- C9: the map that `SendData` marshals has exactly the two fields text and
channel; channel is the `ChannelName` and text is the name, then a full stop and
Release, then the release, a line break, the description, an empty line and the
link, so that the four arguments are in the text, in that order. The request
that `SendData` sends carries what `json.Marshal` makes of this map. -/
theorem SendData_payload (sr : SlackReciever) (name release description link : String) :
    payload sr name release description link
        = [("text", name ++ ". Release: " ++ release ++ "\n" ++ description ++ "\n\n" ++ link),
            ("channel", sr.ChannelName)]
      ∧ (payload sr name release description link).map Prod.fst = ["text", "channel"]
      ∧ (payload sr name release description link).lookup "channel" = some sr.ChannelName
      ∧ (payload sr name release description link).lookup "text"
        = some (messageText name release description link)
      ∧ (∃ a b c, messageText name release description link
          = name ++ a ++ release ++ b ++ description ++ c ++ link)
      ∧ messageText "r" "v1.1" "fix" "https://x/r/v1.1"
        = "r. Release: v1.1\nfix\n\nhttps://x/r/v1.1"
      ∧ (∀ (env : Env) (w : World) (body : Bytes),
          env.marshal (payload sr name release description link) = (body, none) →
          env.parseURL sr.Hook = none →
          (SendData env sr name release description link w).2.sent
            = w.sent ++ [⟨"POST", sr.Hook, body, [("Content-Type", "application/json")]⟩]) := by
  refine ⟨rfl, rfl, ?_, ?_, ⟨". Release: ", "\n", "\n\n", rfl⟩, by decide, ?_⟩
  · simp [payload, List.lookup]
  · simp [payload, List.lookup]
  · intro env w body hm hurl
    rw [SendData_of_request env sr name release description link w body hm hurl]
    exact doLoop_sent env _ 9 _ _

theorem SendData_payload_witness :
    (SendData sampleEnv sampleReciever "r" "v1.1" "fix" "https://x/r/v1.1" ⟨[], []⟩).2.sent
      = [⟨"POST", "https://hooks.example/T0",
          (sampleEnv.marshal (payload sampleReciever "r" "v1.1" "fix" "https://x/r/v1.1")).1,
          [("Content-Type", "application/json")]⟩] :=
  (SendData_payload sampleReciever "r" "v1.1" "fix" "https://x/r/v1.1").2.2.2.2.2.2
    sampleEnv ⟨[], []⟩ _ rfl rfl

end slack

end ReleaseWatcher
